import Mathlib

/-!
Verification development for the transaction fan-out dispatcher in
`services/tx_analyzer.go` (forta-node).

The Go code is shallowly embedded as follows.

* `TransactionEvent` models `*feeds.TransactionEvent`; its `ToMessage`
  method lives in the external `feeds` package, so an event carries its
  translation outcome as a field (the dispatcher only calls the method
  and branches on the error).
* `EvaluateRequest` models `protocol.EvaluateRequest` with its
  `RequestId` (a UUID string) and `Event` payload.  UUID generation
  (`uuid.Must(uuid.NewUUID())`, an external library call that cannot
  fail in the embedding) is modelled by a supply `uuids : Nat → String`
  consumed at a monotone counter.
* The code allocates one request object per event
  (`request := &protocol.EvaluateRequest{...}`, line 89) and sends the
  same pointer on every agent channel (line 93).  Allocation is made
  explicit: the heap is a list of `EvaluateRequest` values and a queue
  entry is an allocation id (index into the heap), so pointer sharing
  between queues is observable.
* The ingestion goroutine (the closure passed to `grp.Go` in `Start`,
  lines 68-101) is `runIngest`: it consumes the `TxChannel` items in
  order, paired with the value `ctx.Err() != nil` observed at that
  iteration, and also records a trace of its observable actions
  (context checks, translation failures, channel sends, channel
  closes).
* The per-agent goroutine (`newAgentStream`, lines 31-53) is
  `runWorker`: it consumes the queue contents in order, again paired
  with the observed `ctx.Err() != nil` value, calling the external
  oracles `evaluate` (the gRPC `agent.Evaluate` call, whose failures
  cover timeout, transport error and application rejection) and
  `marshal` (`jsonpb.Marshaler.MarshalToString`).
* `errgroup.Wait` (external, documented to return the first non-nil
  error among the goroutines) is `errgroupWait` over the goroutine
  results listed in completion order.
* `context.WithTimeout(ctx, 5*time.Second)` (line 36) is `withTimeout`:
  the derived context is done when the parent is done or the deadline
  has passed.
-/

namespace TxAnalyzer

/-- Canonical payload produced by `tx.ToMessage()` (protocol message). -/
structure Message where
  data : Nat
deriving DecidableEq, Repr, Inhabited

/-- Result of `tx.ToMessage()`: a canonical message, or an error. -/
inductive TranslateResult where
  | ok (msg : Message)
  | err (e : String)
deriving DecidableEq, Repr

/-- Models `*feeds.TransactionEvent`: the only operation the dispatcher
uses is `ToMessage`, which may fail; the event carries that outcome. -/
structure TransactionEvent where
  toMessage : TranslateResult
deriving DecidableEq, Repr

/-- Models `protocol.EvaluateRequest` (line 89):
`&protocol.EvaluateRequest{RequestId: requestId.String(), Event: msg}`. -/
structure EvaluateRequest where
  requestId : String
  event : Message
deriving DecidableEq, Repr, Inhabited

/-- Models `protocol.EvaluateResponse` returned by `agent.Evaluate`. -/
structure EvaluateResponse where
  body : Nat
deriving DecidableEq, Repr

/-- Log lines emitted by the dispatcher and the workers. -/
inductive LogEntry where
  /-- `log.Error("error converting tx event to message", err)` (line 84). -/
  | translateError (e : String)
  /-- `log.Error("error invoking agent", err)` (line 40). -/
  | agentError (e : String)
  /-- `log.Error("error marshaling response", err)` (line 47). -/
  | marshalError (e : String)
  /-- `log.Infof(resStr)` (line 50). -/
  | info (s : String)
deriving DecidableEq, Repr

/-- Observable actions of the ingestion goroutine. -/
inductive Action where
  /-- Evaluation of `ctx.Err() != nil` at the top of the loop body (line 77). -/
  | checkCtx (cancelled : Bool)
  /-- The `tx.ToMessage()` error branch was taken (lines 82-86). -/
  | translateFail
  /-- `agtCh <- request` (line 93): send of allocation `allocId` on agent
  channel `agentIdx`. -/
  | enqueue (agentIdx : Nat) (allocId : Nat)
  /-- `close(agtCh)` in the deferred loop (lines 69-73). -/
  | closeQueue (agentIdx : Nat)
deriving DecidableEq, Repr

/-- State of the ingestion goroutine: the allocated request objects
(`heap`, indexed by allocation id), the per-agent channel contents
(`queues`, each a FIFO of allocation ids), the UUID supply counter, and
the error log. -/
structure IngestState where
  heap : List EvaluateRequest
  queues : List (List Nat)
  counter : Nat
  log : List LogEntry
deriving DecidableEq, Repr

/-- The only error the ingestion goroutine can return: `ctx.Err()` (line 78). -/
inductive IngestErr where
  | cancelled
deriving DecidableEq, Repr

/-- Result of running the ingestion goroutine to completion. -/
structure IngestOut where
  state : IngestState
  trace : List Action
  err : Option IngestErr
deriving DecidableEq, Repr

/-- Models lines 88-89: `requestId := uuid.Must(uuid.NewUUID())` followed by
`request := &protocol.EvaluateRequest{RequestId: requestId.String(), Event: msg}`.
Total: the tagging step has no failure branch. -/
def tag (uuids : Nat → String) (counter : Nat) (msg : Message) : EvaluateRequest :=
  { requestId := uuids counter, event := msg }

/-- Models lines 88-95 for one successfully translated event: allocate the
single request object on the heap and send the same allocation id on every
agent channel, in configured agent order. -/
def enqueueTagged (uuids : Nat → String) (s : IngestState) (msg : Message) : IngestState :=
  { heap := s.heap ++ [tag uuids s.counter msg],
    queues := s.queues.map (fun q => q ++ [s.heap.length]),
    counter := s.counter + 1,
    log := s.log }

/-- Models the ingestion goroutine body (lines 75-99): for each event received
from `TxChannel` (paired with the `ctx.Err() != nil` value observed at that
iteration), check the context, translate, tag, and broadcast.  Returns the
final state, the action trace, and the goroutine's return value. -/
def runIngest (uuids : Nat → String) :
    List (Bool × TransactionEvent) → IngestState → IngestOut
  | [], s => { state := s, trace := [], err := none }
  | (c, tx) :: rest, s =>
    if c then
      { state := s, trace := [Action.checkCtx true], err := some IngestErr.cancelled }
    else
      match tx.toMessage with
      | TranslateResult.err e =>
        let r := runIngest uuids rest
          { s with log := s.log ++ [LogEntry.translateError e] }
        { state := r.state,
          trace := Action.checkCtx false :: Action.translateFail :: r.trace,
          err := r.err }
      | TranslateResult.ok msg =>
        let r := runIngest uuids rest (enqueueTagged uuids s msg)
        { state := r.state,
          trace := Action.checkCtx false ::
            ((List.range s.queues.length).map
              (fun j => Action.enqueue j s.heap.length) ++ r.trace),
          err := r.err }

/-- Initial state of `Start` (lines 63-67): `n` freshly made empty agent
channels, empty heap, fresh UUID counter. -/
def initState (n : Nat) : IngestState :=
  { heap := [], queues := List.replicate n [], counter := 0, log := [] }

/-- The full trace of the ingestion goroutine including the deferred
`close(agtCh)` loop (lines 69-73), which runs exactly once on any return
path and closes each of the `n` channels once, in order. -/
def ingestFullTrace (uuids : Nat → String) (n : Nat)
    (inputs : List (Bool × TransactionEvent)) : List Action :=
  (runIngest uuids inputs (initState n)).trace ++
    (List.range n).map Action.closeQueue

/-- Worker loop exit status: `.done` models `return nil` (line 52) after the
channel is closed and drained; `.ctxErr` models `return ctx.Err()` (line 35). -/
inductive WorkerExit where
  | done
  | ctxErr
deriving DecidableEq, Repr

/-- Result of running one agent worker (`newAgentStream`) to completion. -/
structure WorkerOut where
  calls : List EvaluateRequest
  logs : List LogEntry
  exit : WorkerExit
deriving DecidableEq, Repr

/-- Models `newAgentStream` (lines 31-53): consume the received requests in
order (each paired with the `ctx.Err() != nil` value observed right after the
receive, line 34), issue the `Evaluate` call through the oracle `evaluate`
(failures cover timeout, transport error and application rejection), marshal
successful responses through the oracle `marshal`, and log.  `calls` records
the requests for which `agent.Evaluate` was actually invoked. -/
def runWorker (evaluate : EvaluateRequest → Except String EvaluateResponse)
    (marshal : EvaluateResponse → Except String String) :
    List (Bool × EvaluateRequest) → WorkerOut
  | [] => { calls := [], logs := [], exit := WorkerExit.done }
  | (c, req) :: rest =>
    if c then
      { calls := [], logs := [], exit := WorkerExit.ctxErr }
    else
      match evaluate req with
      | Except.error e =>
        let r := runWorker evaluate marshal rest
        { calls := req :: r.calls,
          logs := LogEntry.agentError e :: r.logs,
          exit := r.exit }
      | Except.ok resp =>
        match marshal resp with
        | Except.error e =>
          let r := runWorker evaluate marshal rest
          { calls := req :: r.calls,
            logs := LogEntry.marshalError e :: r.logs,
            exit := r.exit }
        | Except.ok str =>
          let r := runWorker evaluate marshal rest
          { calls := req :: r.calls,
            logs := LogEntry.info str :: r.logs,
            exit := r.exit }

/-- The goroutine results fed to `errgroup.Wait`. -/
inductive GroupErr where
  | cancelled
deriving DecidableEq, Repr

/-- Models `errgroup.Wait` (line 100, external `golang.org/x/sync/errgroup`):
given the goroutine results in completion order, returns the first non-nil
error, or nil when every goroutine returned nil. -/
def errgroupWait (results : List (Option GroupErr)) : Option GroupErr :=
  results.findSome? id

/-- Models line 36, `ctx, cancel := context.WithTimeout(ctx, 5*time.Second)`:
the per-call context derived from the shared errgroup context.  Following the
`context` package semantics, the derived context is done at time `t` when the
parent is done at `t` or the deadline `start + dur` has passed. -/
def withTimeout (parentDone : Nat → Bool) (start dur : Nat) : Nat → Bool :=
  fun t => parentDone t || decide (start + dur ≤ t)

/-- The requests produced, in event order, by translating and tagging the
events that translate successfully, starting the UUID counter at `c`
(specification of the translate-and-tag pipeline in source order). -/
def taggedFrom (uuids : Nat → String) (c : Nat) :
    List TransactionEvent → List EvaluateRequest
  | [] => []
  | tx :: rest =>
    match tx.toMessage with
    | TranslateResult.err _ => taggedFrom uuids c rest
    | TranslateResult.ok msg => tag uuids c msg :: taggedFrom uuids (c + 1) rest

/-- The number of events in the list that translate successfully. -/
def numOk : List TransactionEvent → Nat
  | [] => 0
  | tx :: rest =>
    match tx.toMessage with
    | TranslateResult.err _ => numOk rest
    | TranslateResult.ok _ => numOk rest + 1

/-- The translation-error log entries produced by a list of events. -/
def errLogsOf : List TransactionEvent → List LogEntry
  | [] => []
  | tx :: rest =>
    match tx.toMessage with
    | TranslateResult.err e => LogEntry.translateError e :: errLogsOf rest
    | TranslateResult.ok _ => errLogsOf rest

/-- The calls made by agent worker `j` in a complete run of `Start` in which
the context is never cancelled: the ingestion goroutine consumes all of `txs`,
then worker `j` drains its channel, dereferencing each received allocation id
in the shared heap. -/
def dispatchCalls (uuids : Nat → String)
    (evaluate : EvaluateRequest → Except String EvaluateResponse)
    (marshal : EvaluateResponse → Except String String)
    (n : Nat) (txs : List TransactionEvent) (j : Nat) : List EvaluateRequest :=
  let out := runIngest uuids (txs.map (fun tx => (false, tx))) (initState n)
  (runWorker evaluate marshal
    ((out.state.queues.getD j []).map
      (fun a => (false, out.state.heap.getD a default)))).calls

example :
    numOk [⟨TranslateResult.ok ⟨5⟩⟩, ⟨TranslateResult.err "bad"⟩,
      ⟨TranslateResult.ok ⟨7⟩⟩] = 2 := by
  decide

example :
    (runIngest (fun k => toString k) [(false, ⟨TranslateResult.ok ⟨5⟩⟩)]
      (initState 2)).state.queues = [[0], [0]] := by
  decide

/-- Closed form of the ingestion state when the context is never cancelled:
the heap collects the tagged requests of the successfully translated events in
order, every queue receives the same run of fresh allocation ids, the counter
advances once per success, and the log collects the translation errors. -/
theorem runIngest_noCancel_state (uuids : Nat → String)
    (txs : List TransactionEvent) (s : IngestState) :
    (runIngest uuids (txs.map (fun tx => (false, tx))) s).state =
      { heap := s.heap ++ taggedFrom uuids s.counter txs,
        queues := s.queues.map (fun q => q ++ List.range' s.heap.length (numOk txs)),
        counter := s.counter + numOk txs,
        log := s.log ++ errLogsOf txs } := by
  induction txs generalizing s with
  | nil =>
    simp [runIngest, taggedFrom, numOk, errLogsOf]
  | cons tx rest ih =>
    cases h : tx.toMessage with
    | err e =>
      simp only [List.map_cons, runIngest, if_neg Bool.false_ne_true, h]
      rw [ih]
      simp [taggedFrom, numOk, errLogsOf, h, List.append_assoc]
    | ok msg =>
      simp only [List.map_cons, runIngest, if_neg Bool.false_ne_true, h]
      rw [ih]
      simp only [enqueueTagged, taggedFrom, numOk, errLogsOf, h,
        List.length_append, List.length_cons, List.length_nil, List.map_map]
      simp only [IngestState.mk.injEq]
      refine ⟨?_, ?_, ?_, trivial⟩
      · simp [List.append_assoc]
      · refine List.map_congr_left (fun q _ => ?_)
        simp only [Function.comp_apply, List.append_assoc,
          List.singleton_append]
        rw [List.range'_succ s.heap.length (numOk rest) 1]
      · omega

/-- When the context is never cancelled the ingestion goroutine returns nil. -/
theorem runIngest_noCancel_err (uuids : Nat → String)
    (txs : List TransactionEvent) (s : IngestState) :
    (runIngest uuids (txs.map (fun tx => (false, tx))) s).err = none := by
  induction txs generalizing s with
  | nil => simp [runIngest]
  | cons tx rest ih =>
    cases h : tx.toMessage with
    | err e =>
      simp [runIngest, h, ih]
    | ok msg =>
      simp [runIngest, h, ih]

/-- `taggedFrom` produces one request per successfully translated event. -/
theorem taggedFrom_length (uuids : Nat → String) (c : Nat)
    (txs : List TransactionEvent) :
    (taggedFrom uuids c txs).length = numOk txs := by
  induction txs generalizing c with
  | nil => rfl
  | cons tx rest ih =>
    cases h : tx.toMessage with
    | err e => simp [taggedFrom, numOk, h, ih]
    | ok msg => simp [taggedFrom, numOk, h, ih]

/-- Reading every index of a list in order through `getD` returns the list. -/
theorem map_getD_range (l : List EvaluateRequest) (d : EvaluateRequest) :
    (List.range l.length).map (fun a => l.getD a d) = l := by
  induction l with
  | nil => rfl
  | cons x xs ih =>
    rw [List.length_cons, List.range_succ_eq_map, List.map_cons, List.map_map]
    have hc : ((fun a => (x :: xs).getD a d) ∘ Nat.succ) = fun a => xs.getD a d := by
      funext a
      rfl
    rw [hc, ih]
    rfl

/-- `getD` on a replicated list returns the replicated element in bounds. -/
theorem getD_replicate_of_lt {α : Type} (n j : Nat) (a : α) (d : α)
    (hj : j < n) : (List.replicate n a).getD j d = a := by
  induction n generalizing j with
  | zero => omega
  | succ m ih =>
    cases j with
    | zero => rfl
    | succ k =>
      rw [List.replicate_succ, List.getD_cons_succ]
      exact ih k (by omega)

/-- A worker with an uncancelled context calls `Evaluate` on every request it
receives, in order, regardless of what the oracles return. -/
theorem runWorker_calls_noCancel
    (evaluate : EvaluateRequest → Except String EvaluateResponse)
    (marshal : EvaluateResponse → Except String String)
    (reqs : List EvaluateRequest) :
    (runWorker evaluate marshal (reqs.map (fun r => (false, r)))).calls = reqs := by
  induction reqs with
  | nil => rfl
  | cons r rest ih =>
    cases hev : evaluate r with
    | error e => simp [runWorker, hev, ih]
    | ok resp =>
      cases hm : marshal resp with
      | error e => simp [runWorker, hev, hm, ih]
      | ok str => simp [runWorker, hev, hm, ih]

/-- A worker with an uncancelled context exits by `return nil`, regardless of
how many calls failed. -/
theorem runWorker_exit_noCancel
    (evaluate : EvaluateRequest → Except String EvaluateResponse)
    (marshal : EvaluateResponse → Except String String)
    (reqs : List EvaluateRequest) :
    (runWorker evaluate marshal (reqs.map (fun r => (false, r)))).exit =
      WorkerExit.done := by
  induction reqs with
  | nil => rfl
  | cons r rest ih =>
    cases hev : evaluate r with
    | error e => simp [runWorker, hev, ih]
    | ok resp =>
      cases hm : marshal resp with
      | error e => simp [runWorker, hev, hm, ih]
      | ok str => simp [runWorker, hev, hm, ih]

/-- In a run of `Start` in which the context is never cancelled, every agent
worker `j < n` issues its `Evaluate` calls exactly on the translate-and-tag
pipeline output, in event order. -/
theorem dispatchCalls_eq (uuids : Nat → String)
    (evaluate : EvaluateRequest → Except String EvaluateResponse)
    (marshal : EvaluateResponse → Except String String)
    (n : Nat) (txs : List TransactionEvent) (j : Nat) (hj : j < n) :
    dispatchCalls uuids evaluate marshal n txs j = taggedFrom uuids 0 txs := by
  simp only [dispatchCalls]
  rw [runIngest_noCancel_state]
  simp only [initState, List.map_replicate, List.nil_append, List.length_nil]
  rw [getD_replicate_of_lt n j _ [] hj]
  rw [← List.range_eq_range']
  rw [(taggedFrom_length uuids 0 txs).symm]
  have hmap : (List.range (taggedFrom uuids 0 txs).length).map
        (fun a => (false, (taggedFrom uuids 0 txs).getD a default)) =
      (taggedFrom uuids 0 txs).map (fun r => (false, r)) := by
    conv_rhs => rw [← map_getD_range (taggedFrom uuids 0 txs) default]
    rw [List.map_map]
    rfl
  rw [hmap]
  exact runWorker_calls_noCancel evaluate marshal (taggedFrom uuids 0 txs)

/-- The ingestion loop body itself never closes a channel: channel closes
happen only in the deferred loop. -/
theorem ingest_trace_no_close (uuids : Nat → String)
    (inputs : List (Bool × TransactionEvent)) (s : IngestState) (j : Nat) :
    Action.closeQueue j ∉ (runIngest uuids inputs s).trace := by
  induction inputs generalizing s with
  | nil => simp [runIngest]
  | cons p rest ih =>
    obtain ⟨c, tx⟩ := p
    cases c with
    | true => simp [runIngest]
    | false =>
      cases h : tx.toMessage with
      | err e => simp [runIngest, h, ih]
      | ok msg =>
        simp [runIngest, h, List.mem_append, ih]

/-- `Action.closeQueue` is injective. -/
theorem closeQueue_injective : Function.Injective Action.closeQueue := by
  intro a b h
  injection h

/-- Every one of the `n` agent channels is closed exactly once in the full
ingestion-goroutine trace, whichever return path was taken. -/
theorem ingestFullTrace_close_once (uuids : Nat → String) (n : Nat)
    (inputs : List (Bool × TransactionEvent)) (j : Nat) (hj : j < n) :
    (ingestFullTrace uuids n inputs).count (Action.closeQueue j) = 1 := by
  unfold ingestFullTrace
  rw [List.count_append]
  rw [List.count_eq_zero.mpr (ingest_trace_no_close uuids inputs (initState n) j)]
  rw [List.count_map_of_injective _ Action.closeQueue closeQueue_injective]
  rw [List.count_eq_one_of_mem (List.nodup_range n) (List.mem_range.mpr hj)]

/-- `errgroup.Wait` returns nil exactly when every goroutine returned nil. -/
theorem errgroupWait_none_iff (results : List (Option GroupErr)) :
    errgroupWait results = none ↔ ∀ r ∈ results, r = none := by
  unfold errgroupWait
  rw [List.findSome?_eq_none_iff]
  simp

/-- `errgroup.Wait` returns the first non-nil error, in completion order. -/
theorem errgroupWait_first (results : List (Option GroupErr)) (i : Nat)
    (e : GroupErr) (hi : results.get? i = some (some e))
    (hbefore : ∀ k, k < i → results.get? k = some none) :
    errgroupWait results = some e := by
  induction results generalizing i with
  | nil => simp at hi
  | cons r rs ih =>
    cases i with
    | zero =>
      simp at hi
      subst hi
      simp [errgroupWait, List.findSome?]
    | succ k =>
      have h0 : r = none := by
        have := hbefore 0 (by omega)
        simpa using this
      subst h0
      simp only [List.get?_cons_succ] at hi
      have := ih k hi (fun m hm => by
        have := hbefore (m + 1) (by omega)
        simpa using this)
      simpa [errgroupWait, List.findSome?] using this

/-- `true` when an action is a channel send. -/
def isEnqueue : Action → Bool
  | Action.enqueue _ _ => true
  | _ => false

/-- `true` when an action is a context check. -/
def isCheck : Action → Bool
  | Action.checkCtx _ => true
  | _ => false

/-- Helper scanning a trace with its previous action. -/
def checkBeforeEnqueueAux : Action → List Action → Bool
  | _, [] => true
  | prev, a :: rest => (!isEnqueue a || isCheck prev) && checkBeforeEnqueueAux a rest

/-- The property claimed of the ingestion loop: every channel send in the
trace is immediately preceded by a check of the shared cancellation signal. -/
def checkBeforeEachEnqueue : List Action → Bool
  | [] => true
  | a :: rest => !isEnqueue a && checkBeforeEnqueueAux a rest

/-- Concrete UUID supply used in concrete instances. -/
def uuidsD : Nat → String := fun k => toString k

/-- A transaction event whose translation succeeds with payload 5. -/
def txOk5 : TransactionEvent := ⟨TranslateResult.ok ⟨5⟩⟩

/-- A transaction event whose translation succeeds with payload 7. -/
def txOk7 : TransactionEvent := ⟨TranslateResult.ok ⟨7⟩⟩

/-- A transaction event whose translation fails. -/
def txBad : TransactionEvent := ⟨TranslateResult.err "bad tx"⟩

/-- An agent oracle whose calls always succeed. -/
def evalOk : EvaluateRequest → Except String EvaluateResponse :=
  fun _ => Except.ok ⟨1⟩

/-- An agent oracle whose calls always fail (e.g. the call timed out). -/
def evalFail : EvaluateRequest → Except String EvaluateResponse :=
  fun _ => Except.error "timeout"

/-- A marshalling oracle that always succeeds. -/
def marshalOk : EvaluateResponse → Except String String :=
  fun _ => Except.ok "resp"

/-- A marshalling oracle that always fails. -/
def marshalFail : EvaluateResponse → Except String String :=
  fun _ => Except.error "marshal boom"

/-- The property C2 claims of the channels: queues of distinct workers never
share an allocation (each holds its own independently-allocated copy). -/
def queuesIndependent (qs : List (List Nat)) : Prop :=
  ∀ i, i < qs.length → ∀ j, j < qs.length → i ≠ j →
    ∀ a ∈ qs.getD i [], ¬ a ∈ qs.getD j []

/-- C1: for every transaction event that translates successfully, with `n`
configured agents, exactly `n` Evaluate calls are issued — one per agent:
each worker `j < n` issues at position `i` (the event's success index) a call
carrying the very same request `r` (equal payload, same correlation
identifier), and issues exactly one call per successfully translated event. -/
theorem evaluate_fanout_per_event (uuids : Nat → String)
    (evaluate : EvaluateRequest → Except String EvaluateResponse)
    (marshal : EvaluateResponse → Except String String)
    (n : Nat) (txs : List TransactionEvent) (i : Nat) (r : EvaluateRequest)
    (hi : (taggedFrom uuids 0 txs).get? i = some r) :
    ∀ j, j < n →
      (dispatchCalls uuids evaluate marshal n txs j).get? i = some r ∧
      (dispatchCalls uuids evaluate marshal n txs j).length = numOk txs := by
  intro j hj
  rw [dispatchCalls_eq uuids evaluate marshal n txs j hj]
  exact ⟨hi, taggedFrom_length uuids 0 txs⟩

/-- Witness for C1 at a concrete instance: two agents, one event. -/
theorem evaluate_fanout_per_event_witness :
    (dispatchCalls uuidsD evalOk marshalOk 2 [txOk5] 1).get? 0 =
      some { requestId := "0", event := { data := 5 } } ∧
    (dispatchCalls uuidsD evalOk marshalOk 2 [txOk5] 1).length =
      numOk [txOk5] :=
  evaluate_fanout_per_event uuidsD evalOk marshalOk 2 [txOk5] 0
    { requestId := "0", event := { data := 5 } } (by decide) 1 (by decide)

/-- C2 as stated is refuted: with two configured agents and one successfully
translated event, both workers' queues hold the same allocation id 0 — the
code sends the same `request` pointer on every channel (line 93), so the
queues do not hold independently-allocated copies. -/
theorem queue_copy_independence_refuted :
    ¬ queuesIndependent
      (runIngest uuidsD [(false, txOk5)] (initState 2)).state.queues := by
  intro h
  exact h 0 (by decide) 1 (by decide) (by decide) 0 (by decide) (by decide)

/-- C2 amended: each translated event produces exactly one request
allocation, and every worker's queue holds a reference to that same single
allocation (the queues are identical), rather than an independent copy; the
allocation itself is written once and never mutated in the model. -/
theorem queue_sharing_amended (uuids : Nat → String) (n : Nat)
    (txs : List TransactionEvent) :
    (runIngest uuids (txs.map (fun tx => (false, tx)))
        (initState n)).state.queues =
      List.replicate n (List.range (numOk txs)) ∧
    (runIngest uuids (txs.map (fun tx => (false, tx)))
        (initState n)).state.heap.length = numOk txs := by
  rw [runIngest_noCancel_state]
  constructor
  · simp [initState, List.map_replicate, List.range_eq_range']
  · simp [initState, taggedFrom_length]

/-- C3: on exhaustion of the event source, the deferred loop closes every
agent channel exactly once; every worker run terminates in one of the two
exit states; and `errgroup.Wait` returns nil exactly when the ingestion
goroutine and all workers returned nil, and otherwise returns the first
reported error. -/
theorem dispatcher_shutdown (uuids : Nat → String) (n : Nat)
    (inputs : List (Bool × TransactionEvent))
    (evaluate : EvaluateRequest → Except String EvaluateResponse)
    (marshal : EvaluateResponse → Except String String)
    (winputs : List (Bool × EvaluateRequest))
    (results : List (Option GroupErr)) :
    (∀ j, j < n →
      (ingestFullTrace uuids n inputs).count (Action.closeQueue j) = 1) ∧
    ((runWorker evaluate marshal winputs).exit = WorkerExit.done ∨
      (runWorker evaluate marshal winputs).exit = WorkerExit.ctxErr) ∧
    (errgroupWait results = none ↔ ∀ r ∈ results, r = none) ∧
    (∀ i e, results.get? i = some (some e) →
      (∀ k, k < i → results.get? k = some none) →
      errgroupWait results = some e) := by
  refine ⟨fun j hj => ingestFullTrace_close_once uuids n inputs j hj, ?_,
    errgroupWait_none_iff results,
    fun i e hi hb => errgroupWait_first results i e hi hb⟩
  cases h : (runWorker evaluate marshal winputs).exit
  · exact Or.inl rfl
  · exact Or.inr rfl

/-- Witness for C3 at a concrete instance. -/
theorem dispatcher_shutdown_witness :
    (ingestFullTrace uuidsD 1 []).count (Action.closeQueue 0) = 1 ∧
    errgroupWait [some GroupErr.cancelled] = some GroupErr.cancelled :=
  ⟨(dispatcher_shutdown uuidsD 1 [] evalOk marshalOk []
      [some GroupErr.cancelled]).1 0 (by decide),
   (dispatcher_shutdown uuidsD 1 [] evalOk marshalOk []
      [some GroupErr.cancelled]).2.2.2 0 GroupErr.cancelled (by decide)
      (fun k hk => absurd hk (Nat.not_lt_zero k))⟩

/-- C4: when an agent call fails, the worker logs the failure and continues
with the next queued request, with the rest of its run (including its exit
status) unchanged; and regardless of how the oracles behave, a worker whose
context is never cancelled exits with nil, so call failures never reach the
dispatcher result. -/
theorem worker_call_failure_isolated
    (evaluate : EvaluateRequest → Except String EvaluateResponse)
    (marshal : EvaluateResponse → Except String String)
    (req : EvaluateRequest) (rest : List (Bool × EvaluateRequest)) (e : String)
    (h : evaluate req = Except.error e) :
    runWorker evaluate marshal ((false, req) :: rest) =
      { calls := req :: (runWorker evaluate marshal rest).calls,
        logs := LogEntry.agentError e :: (runWorker evaluate marshal rest).logs,
        exit := (runWorker evaluate marshal rest).exit } ∧
    (∀ reqs : List EvaluateRequest,
      (runWorker evaluate marshal (reqs.map (fun r => (false, r)))).exit =
        WorkerExit.done) :=
  ⟨by simp [runWorker, h], fun reqs => runWorker_exit_noCancel evaluate marshal reqs⟩

/-- Witness for C4 at a concrete instance: an always-failing agent. -/
theorem worker_call_failure_isolated_witness :
    runWorker evalFail marshalOk [(false, { requestId := "0", event := ⟨5⟩ })] =
      { calls := { requestId := "0", event := ⟨5⟩ } ::
          (runWorker evalFail marshalOk []).calls,
        logs := LogEntry.agentError "timeout" ::
          (runWorker evalFail marshalOk []).logs,
        exit := (runWorker evalFail marshalOk []).exit } :=
  (worker_call_failure_isolated evalFail marshalOk
    { requestId := "0", event := ⟨5⟩ } [] "timeout" rfl).1

/-- C5: when an event's translation fails, the error is logged, no request is
allocated or enqueued for it (heap, queues and counter are untouched), and
the ingestion loop continues with the remaining events unchanged. -/
theorem translation_failure_skipped (uuids : Nat → String)
    (tx : TransactionEvent) (rest : List (Bool × TransactionEvent))
    (s : IngestState) (e : String)
    (h : tx.toMessage = TranslateResult.err e) :
    runIngest uuids ((false, tx) :: rest) s =
      { state := (runIngest uuids rest
          { s with log := s.log ++ [LogEntry.translateError e] }).state,
        trace := Action.checkCtx false :: Action.translateFail ::
          (runIngest uuids rest
            { s with log := s.log ++ [LogEntry.translateError e] }).trace,
        err := (runIngest uuids rest
          { s with log := s.log ++ [LogEntry.translateError e] }).err } := by
  simp [runIngest, h]

/-- Witness for C5 at a concrete instance. -/
theorem translation_failure_skipped_witness :
    runIngest uuidsD [(false, txBad)] (initState 1) =
      { state := (runIngest uuidsD []
          { initState 1 with
            log := (initState 1).log ++
              [LogEntry.translateError "bad tx"] }).state,
        trace := Action.checkCtx false :: Action.translateFail ::
          (runIngest uuidsD []
            { initState 1 with
              log := (initState 1).log ++
                [LogEntry.translateError "bad tx"] }).trace,
        err := (runIngest uuidsD []
          { initState 1 with
            log := (initState 1).log ++
              [LogEntry.translateError "bad tx"] }).err } :=
  translation_failure_skipped uuidsD txBad [] (initState 1) "bad tx" rfl

/-- C6 as stated is refuted: with two configured agents and one successfully
translated event, the ingestion trace is a single context check followed by
two channel sends, so the second send is not preceded by a check — the loop
does not check the cancellation signal before each queue placement. -/
theorem placement_check_refuted :
    checkBeforeEachEnqueue
      (runIngest uuidsD [(false, txOk5)] (initState 2)).trace = false := by
  decide

/-- C6 amended: the ingestion loop checks the shared cancellation signal once
per loop iteration (at the start of the body, not before each individual
placement) and exits immediately, with no placements, when it is set; a
worker observes the signal after dequeuing its next request and exits without
evaluating it or any further queued work. -/
theorem cancellation_check_amended (uuids : Nat → String) (c : Bool)
    (tx : TransactionEvent) (rest : List (Bool × TransactionEvent))
    (s : IngestState)
    (evaluate : EvaluateRequest → Except String EvaluateResponse)
    (marshal : EvaluateResponse → Except String String)
    (req : EvaluateRequest) (wrest : List (Bool × EvaluateRequest)) :
    ((runIngest uuids ((c, tx) :: rest) s).trace.head? =
      some (Action.checkCtx c)) ∧
    (runIngest uuids ((true, tx) :: rest) s =
      { state := s, trace := [Action.checkCtx true],
        err := some IngestErr.cancelled }) ∧
    (runWorker evaluate marshal ((true, req) :: wrest) =
      { calls := [], logs := [], exit := WorkerExit.ctxErr }) := by
  refine ⟨?_, by simp [runIngest], by simp [runWorker]⟩
  cases c with
  | true => simp [runIngest]
  | false => cases h : tx.toMessage <;> simp [runIngest, h]

/-- C7 as stated is refuted: the per-call context is derived from the shared
errgroup context (line 36), so when the shared cancellation signal is set
(parent done at every time), the call's context is already done at time 1,
before its 5-second deadline — the in-flight call is not allowed to run to
its own timeout. -/
theorem call_timeout_isolation_refuted :
    ¬ (withTimeout (fun _ => true) 0 5 1 = true → 0 + 5 ≤ 1) := by
  decide

/-- C7 amended: the in-flight call's context is cancelled as soon as the
shared signal is set — shared cancellation does forcibly terminate it; only
while the shared signal is unset is the call bounded exactly by its own
per-call deadline. -/
theorem call_context_cancellation (parentDone : Nat → Bool)
    (start dur t : Nat) :
    (parentDone t = true → withTimeout parentDone start dur t = true) ∧
    (parentDone t = false →
      (withTimeout parentDone start dur t = true ↔ start + dur ≤ t)) := by
  constructor
  · intro h
    simp [withTimeout, h]
  · intro h
    simp [withTimeout, h]

/-- Witness for the amended C7 at concrete instances. -/
theorem call_context_cancellation_witness :
    withTimeout (fun _ => true) 0 5 1 = true ∧
    (withTimeout (fun _ => false) 0 5 7 = true ↔ 0 + 5 ≤ 7) :=
  ⟨(call_context_cancellation (fun _ => true) 0 5 1).1 rfl,
   (call_context_cancellation (fun _ => false) 0 5 7).2 rfl⟩

/-- C8: each agent worker `j < n` receives and evaluates the requests in
exactly the order in which the corresponding events were produced by the
event source (FIFO per queue): its call sequence equals the translate-and-tag
pipeline output in source order. -/
theorem per_agent_fifo_order (uuids : Nat → String)
    (evaluate : EvaluateRequest → Except String EvaluateResponse)
    (marshal : EvaluateResponse → Except String String)
    (n : Nat) (txs : List TransactionEvent) (j : Nat) (hj : j < n) :
    dispatchCalls uuids evaluate marshal n txs j = taggedFrom uuids 0 txs :=
  dispatchCalls_eq uuids evaluate marshal n txs j hj

/-- Witness for C8 at a concrete instance: two agents, three events. -/
theorem per_agent_fifo_order_witness :
    dispatchCalls uuidsD evalOk marshalOk 2 [txOk5, txBad, txOk7] 1 =
      taggedFrom uuidsD 0 [txOk5, txBad, txOk7] :=
  per_agent_fifo_order uuidsD evalOk marshalOk 2 [txOk5, txBad, txOk7] 1
    (by decide)

/-- C9: the tagging step is total — for every successful translation it
allocates the tagged request on the heap and the ingestion loop proceeds to
broadcast it, with no failure branch: tagging never aborts the dispatcher. -/
theorem tagger_total (uuids : Nat → String) (tx : TransactionEvent)
    (msg : Message) (rest : List (Bool × TransactionEvent)) (s : IngestState)
    (h : tx.toMessage = TranslateResult.ok msg) :
    (enqueueTagged uuids s msg).heap = s.heap ++ [tag uuids s.counter msg] ∧
    runIngest uuids ((false, tx) :: rest) s =
      { state := (runIngest uuids rest (enqueueTagged uuids s msg)).state,
        trace := Action.checkCtx false ::
          ((List.range s.queues.length).map
            (fun j => Action.enqueue j s.heap.length) ++
            (runIngest uuids rest (enqueueTagged uuids s msg)).trace),
        err := (runIngest uuids rest (enqueueTagged uuids s msg)).err } :=
  ⟨rfl, by simp [runIngest, h]⟩

/-- Witness for C9 at a concrete instance. -/
theorem tagger_total_witness :
    runIngest uuidsD [(false, txOk5)] (initState 1) =
      { state := (runIngest uuidsD []
          (enqueueTagged uuidsD (initState 1) ⟨5⟩)).state,
        trace := Action.checkCtx false ::
          ((List.range (initState 1).queues.length).map
            (fun j => Action.enqueue j (initState 1).heap.length) ++
            (runIngest uuidsD []
              (enqueueTagged uuidsD (initState 1) ⟨5⟩)).trace),
        err := (runIngest uuidsD []
          (enqueueTagged uuidsD (initState 1) ⟨5⟩)).err } :=
  (tagger_total uuidsD txOk5 ⟨5⟩ [] (initState 1) rfl).2

/-- C10: when marshalling a successful result fails, the worker logs the
marshalling error and continues with the next queued request, its exit status
unchanged; and a worker whose context is never cancelled exits with nil, so
marshalling failures never reach the dispatcher result. -/
theorem marshal_failure_isolated
    (evaluate : EvaluateRequest → Except String EvaluateResponse)
    (marshal : EvaluateResponse → Except String String)
    (req : EvaluateRequest) (rest : List (Bool × EvaluateRequest))
    (resp : EvaluateResponse) (e : String)
    (h1 : evaluate req = Except.ok resp)
    (h2 : marshal resp = Except.error e) :
    runWorker evaluate marshal ((false, req) :: rest) =
      { calls := req :: (runWorker evaluate marshal rest).calls,
        logs := LogEntry.marshalError e ::
          (runWorker evaluate marshal rest).logs,
        exit := (runWorker evaluate marshal rest).exit } ∧
    (∀ reqs : List EvaluateRequest,
      (runWorker evaluate marshal (reqs.map (fun r => (false, r)))).exit =
        WorkerExit.done) :=
  ⟨by simp [runWorker, h1, h2],
   fun reqs => runWorker_exit_noCancel evaluate marshal reqs⟩

/-- Witness for C10 at a concrete instance: an always-failing marshaller. -/
theorem marshal_failure_isolated_witness :
    runWorker evalOk marshalFail [(false, { requestId := "0", event := ⟨5⟩ })] =
      { calls := { requestId := "0", event := ⟨5⟩ } ::
          (runWorker evalOk marshalFail []).calls,
        logs := LogEntry.marshalError "marshal boom" ::
          (runWorker evalOk marshalFail []).logs,
        exit := (runWorker evalOk marshalFail []).exit } :=
  (marshal_failure_isolated evalOk marshalFail
    { requestId := "0", event := ⟨5⟩ } [] ⟨1⟩ "marshal boom" rfl rfl).1

end TxAnalyzer
